import Mathlib

/-!
Shallow embedding of the Whisper VST plugin core (src/src/lib.rs).

Modelling choices:
- The `u8` field `notes` is embedded as a `Nat` kept below 256 by taking
  `% 256` at every update, matching release-mode wrapping semantics of the
  unchecked `+= 1u8` / `-= 1u8` in `Whisper::process_events`.
- `f32` values (the `AtomicFloat` volume, audio samples) are embedded as
  exact rationals. The store/load pair of `AtomicFloat` is bitwise exact in
  the source, and the sample expressions proved about here (the literal
  `0.0` write and the product `(r - 0.5) * 2 * volume`) are stated over this
  exact arithmetic.
- The per-sample call to `rand::random::<f32>()`, uniform on [0, 1), is
  embedded as an oracle `rand : Nat -> Nat -> Rat` giving the value drawn
  for channel `c`, sample `i`; freshness per sample per channel is expressed
  by the oracle depending on both indices.
- The host event batch `vst::api::Events` is embedded as a list; a MIDI
  event carries its three data bytes, every other event kind is one
  constructor, since `process_events` ignores everything about them.
-/

/-- One host event: a MIDI event with its three data bytes, or any other
event kind (ignored by the plugin). -/
inductive VstEvent
  | midi (d0 d1 d2 : ℕ)
  | other

/-- `WhisperParameters` from the source: one `AtomicFloat` cell, the volume. -/
structure WhisperParameters where
  volume : ℚ

/-- `impl Default for WhisperParameters`: volume starts at 1.0. -/
def WhisperParameters.default : WhisperParameters :=
  { volume := 1 }

/-- The plugin struct: shared parameters and the held-note counter (a `u8`,
kept below 256 here by the updates in `step_notes`). -/
structure Whisper where
  params : WhisperParameters
  notes : ℕ

/-- `#[derive(Default)]` on `Whisper`: default parameters, zero notes. -/
def Whisper.default : Whisper :=
  { params := WhisperParameters.default, notes := 0 }

/-- One iteration of the event loop in `Whisper::process_events`:
data byte 144 (note on) increments the `u8` counter, data byte 128
(note off) decrements it, both with wrapping (mod 256); any other data
byte and any non-MIDI event leave it unchanged. Wrapping subtraction of 1
on a value below 256 is `(n + 255) % 256`. -/
def step_notes (notes : ℕ) (e : VstEvent) : ℕ :=
  match e with
  | .midi d0 _ _ =>
    if d0 = 144 then (notes + 1) % 256
    else if d0 = 128 then (notes + 255) % 256
    else notes
  | .other => notes

/-- `Whisper::process_events`: fold the cycle event batch, in delivery
order, over the held-note counter. -/
def process_events (w : Whisper) (events : List VstEvent) : Whisper :=
  { w with notes := events.foldl step_notes w.notes }

/-- `Whisper::process`: with no note held, overwrite every sample of every
output channel with 0.0; otherwise overwrite every sample of channel `c` at
index `i` with `(rand c i - 0.5) * 2 * volume`. The buffer argument supplies
the channel count and per-channel lengths; its prior sample values are
never read. -/
def process (w : Whisper) (buffer : List (List ℚ)) (rand : ℕ → ℕ → ℚ) :
    List (List ℚ) :=
  if w.notes = 0 then
    buffer.map (fun ch => ch.map (fun _ => 0))
  else
    (List.range buffer.length).map (fun c =>
      (List.range (buffer.getD c []).length).map (fun i =>
        (rand c i - 1/2) * 2 * w.params.volume))

/-- `Whisper::process` together with the plugin state after the call: the
method body writes only buffer samples and never assigns to `self.notes` or
to the parameter cell, so the state component is the input state. -/
def process_full (w : Whisper) (buffer : List (List ℚ)) (rand : ℕ → ℕ → ℚ) :
    Whisper × List (List ℚ) :=
  (w, process w buffer rand)

/-- `WhisperParameters::get_parameter_label`. -/
def get_parameter_label (_p : WhisperParameters) (index : ℤ) : String :=
  if index = 0 then "x" else ""

/-- Model of the Rust fixed 3-decimal formatting used for the volume display
text; ties are rounded away from zero here, a detail no claim depends on. -/
def format_fixed3 (q : ℚ) : String :=
  let m : ℕ := (Int.floor (|q| * 1000 + 1/2)).toNat
  let fs : String := Nat.repr (m % 1000)
  (if q < 0 then "-" else "") ++ Nat.repr (m / 1000) ++ "." ++
    String.join (List.replicate (3 - fs.length) "0") ++ fs

/-- `WhisperParameters::get_parameter_text`: index 0 formats the current
volume, every other index yields the empty string. -/
def get_parameter_text (p : WhisperParameters) (index : ℤ) : String :=
  if index = 0 then format_fixed3 p.volume else ""

/-- `WhisperParameters::get_parameter_name`. -/
def get_parameter_name (_p : WhisperParameters) (index : ℤ) : String :=
  if index = 0 then "volume" else ""

/-- `WhisperParameters::get_parameter`: index 0 reads the volume cell, any
other index yields 0.0. -/
def get_parameter (p : WhisperParameters) (index : ℤ) : ℚ :=
  if index = 0 then p.volume else 0

/-- `WhisperParameters::set_parameter`: index 0 stores the value unchanged
(no clamping in the source), any other index is a no-op. -/
def set_parameter (p : WhisperParameters) (index : ℤ) (value : ℚ) :
    WhisperParameters :=
  if index = 0 then { p with volume := value } else p

/-- A sequence of host `set_parameter` calls applied in order. -/
def apply_sets (p : WhisperParameters) (calls : List (ℤ × ℚ)) :
    WhisperParameters :=
  calls.foldl (fun q c => set_parameter q c.1 c.2) p

/-- The `vst::plugin::Category` variants this plugin can mention. -/
inductive Category
  | Unknown
  | Effect
  | Synth
  | Analysis
  | Generator

/-- The fields of `vst::plugin::Info` that `Whisper::get_info` sets. -/
structure Info where
  name : String
  unique_id : ℤ
  inputs : ℤ
  outputs : ℤ
  category : Category
  parameters : ℤ

/-- `Whisper::get_info`: the plugin descriptor. -/
def get_info (_w : Whisper) : Info :=
  { name := "Whisper"
    unique_id := 1337
    inputs := 0
    outputs := 2
    category := Category.Synth
    parameters := 1 }

/-- Number of note-on events (MIDI data byte 144) in a batch. -/
def count_on : List VstEvent → ℕ
  | [] => 0
  | .midi d0 _ _ :: evs => (if d0 = 144 then 1 else 0) + count_on evs
  | .other :: evs => count_on evs

/-- Number of note-off events (MIDI data byte 128) in a batch. -/
def count_off : List VstEvent → ℕ
  | [] => 0
  | .midi d0 _ _ :: evs => (if d0 = 128 then 1 else 0) + count_off evs
  | .other :: evs => count_off evs

/-- The SPEC WORDING of the counter update, for comparison with the source:
note on adds one, note off takes max(0, count - 1) (truncated `Nat`
subtraction is exactly that clamp), anything else is ignored. -/
def spec_step (count : ℕ) (e : VstEvent) : ℕ :=
  match e with
  | .midi d0 _ _ =>
    if d0 = 144 then count + 1
    else if d0 = 128 then count - 1
    else count
  | .other => count

/-- The SPEC WORDING of the held-note count after a batch from the initial
state: fold the clamped update over the events. -/
def spec_count (events : List VstEvent) : ℕ :=
  events.foldl spec_step 0

/-! Theorems -/

/-- The counter update stays below 256 and turns any in-range wrapped value
into the next in-range wrapped value. -/
theorem step_notes_lt (notes : ℕ) (h : notes < 256) (e : VstEvent) :
    step_notes notes e < 256 := by
  cases e with
  | midi d0 d1 d2 =>
    simp only [step_notes]
    split
    · omega
    · split
      · omega
      · exact h
  | other => simpa [step_notes] using h

/-- Folding the source counter update over a batch from any in-range start
computes the wrapped sum: one is added per note-on and 255 (wrapping minus
one) per note-off, all modulo 256. -/
theorem foldl_step_notes (evs : List VstEvent) :
    ∀ init : ℕ, init < 256 →
      List.foldl step_notes init evs =
        (init + count_on evs + 255 * count_off evs) % 256 := by
  induction evs with
  | nil =>
    intro init h
    simp [count_on, count_off]
    omega
  | cons e evs ih =>
    intro init h
    cases e with
    | midi d0 d1 d2 =>
      by_cases h144 : d0 = 144
      · have := ih ((init + 1) % 256) (by omega)
        simp [step_notes, count_on, count_off, h144, this]
        omega
      · by_cases h128 : d0 = 128
        · have := ih ((init + 255) % 256) (by omega)
          simp [step_notes, count_on, count_off, h144, h128, this]
          omega
        · have := ih init h
          simp [step_notes, count_on, count_off, h144, h128, this]
    | other =>
      have := ih init h
      simp [step_notes, count_on, count_off, this]

/-- Claim C1, counterexample: a note-off processed at held-note count 0 does
not leave the count at 0 as the claim states; it wraps the counter to 255. -/
theorem C1_counterexample :
    (process_events Whisper.default [VstEvent.midi 128 60 0]).notes = 255 ∧
      (process_events Whisper.default [VstEvent.midi 128 60 0]).notes ≠ 0 := by
  constructor <;> decide

/-- Claim C1, amended: a note-off event updates the held-note count to
(count - 1) mod 256: to count - 1 when the count is positive, and by
wraparound to 255 (never clamped at 0) when the count is 0. -/
theorem C1_noteoff_wraps (w : Whisper) (h : w.notes < 256) (d1 d2 : ℕ) :
    (process_events w [VstEvent.midi 128 d1 d2]).notes =
      if w.notes = 0 then 255 else w.notes - 1 := by
  by_cases h0 : w.notes = 0 <;>
    simp [process_events, step_notes, h0] <;> omega

/-- Claim C1, witness: the amended statement evaluated at the default state
(count 0): the note-off yields 255. -/
theorem C1_witness :
    (process_events Whisper.default [VstEvent.midi 128 60 0]).notes =
      if Whisper.default.notes = 0 then 255 else Whisper.default.notes - 1 :=
  C1_noteoff_wraps Whisper.default (by decide) 60 0

/-- Claim C2, counterexample: after the single-event batch [note-off] from
the initial state the held-note count is 255, while the claimed value,
(note-ons - note-offs) clamped at zero, is 0. -/
theorem C2_counterexample :
    (process_events Whisper.default [VstEvent.midi 128 60 0]).notes = 255 ∧
      spec_count [VstEvent.midi 128 60 0] = 0 := by
  constructor <;> decide

/-- Claim C2, amended: for every finite batch of events processed from the
initial state, the held-note count equals note-ons + 255 * note-offs reduced
modulo 256, i.e. (note-ons - note-offs) as wrapping 8-bit arithmetic; it is
nonnegative by representation but is not clamped at zero. -/
theorem C2_count_mod256 (evs : List VstEvent) :
    (process_events Whisper.default evs).notes =
      (count_on evs + 255 * count_off evs) % 256 := by
  have h := foldl_step_notes evs 0 (by omega)
  simpa [process_events, Whisper.default] using h

/-- Claim C9: the held-note counter wraps modulo 256: a note-on at count 255
wraps the count to 0, after which rendering writes silence although notes
are held; a note-off at count 0 wraps the count to 255, after which
rendering produces nonzero noise although no note is held. -/
theorem C9_wrapping :
    (process_events { params := WhisperParameters.default, notes := 255 }
        [VstEvent.midi 144 60 100]).notes = 0 ∧
      (process_events { params := WhisperParameters.default, notes := 0 }
        [VstEvent.midi 128 60 0]).notes = 255 ∧
      process (process_events { params := WhisperParameters.default, notes := 255 }
          [VstEvent.midi 144 60 100]) [[1, 2], [3]] (fun _ _ => 1/3) =
        [[0, 0], [0]] ∧
      process (process_events { params := WhisperParameters.default, notes := 0 }
          [VstEvent.midi 128 60 0]) [[9]] (fun _ _ => 3/4) = [[1/2]] := by
  refine ⟨rfl, rfl, rfl, ?_⟩
  norm_num [process, process_events, step_notes, WhisperParameters.default]
  rw [show List.range 1 = [0] from rfl]
  simp

/-- Claim C3: whenever the held-note count is 0, rendering writes exactly
0.0 into every sample of every channel of the output buffer, for any volume
value, any buffer length and any channel count: the output is the input
shape with every sample overwritten by 0. -/
theorem C3_silence (w : Whisper) (buffer : List (List ℚ)) (rand : ℕ → ℕ → ℚ)
    (h : w.notes = 0) :
    process w buffer rand = buffer.map (fun ch => ch.map (fun _ => 0)) := by
  simp [process, h]

/-- Claim C3, witness: the default plugin (count 0, volume 1) renders a
two-channel buffer of lengths 1 and 2 as exact zeros. -/
theorem C3_witness :
    process Whisper.default [[3], [4, 5]] (fun _ _ => 1/3) = [[0], [0, 0]] := by
  rw [C3_silence Whisper.default [[3], [4, 5]] (fun _ _ => 1/3) rfl]
  rfl

/-- Claim C4: whenever the held-note count is nonzero, rendering sets the
sample of channel `c` at index `i` to `(rand c i - 0.5) * 2 * volume` with a
fresh draw per sample per channel; if every draw lies in [0, 1) and the
volume `v` is nonnegative then every sample lies in [-v, v], and if the
volume is exactly 0 then every sample is exactly 0. -/
theorem C4_noise (w : Whisper) (buffer : List (List ℚ)) (rand : ℕ → ℕ → ℚ)
    (hn : w.notes ≠ 0) (hr : ∀ c i, 0 ≤ rand c i ∧ rand c i < 1)
    (hv : 0 ≤ w.params.volume) :
    process w buffer rand =
      (List.range buffer.length).map (fun c =>
        (List.range (buffer.getD c []).length).map (fun i =>
          (rand c i - 1/2) * 2 * w.params.volume)) ∧
    (∀ ch ∈ process w buffer rand, ∀ s ∈ ch,
      -w.params.volume ≤ s ∧ s ≤ w.params.volume) ∧
    (w.params.volume = 0 → ∀ ch ∈ process w buffer rand, ∀ s ∈ ch, s = 0) := by
  have hp : process w buffer rand =
      (List.range buffer.length).map (fun c =>
        (List.range (buffer.getD c []).length).map (fun i =>
          (rand c i - 1/2) * 2 * w.params.volume)) := by
    simp [process, hn]
  refine ⟨hp, ?_, ?_⟩
  · intro ch hch s hs
    rw [hp] at hch
    obtain ⟨c, hc, rfl⟩ := List.mem_map.1 hch
    obtain ⟨i, hi, rfl⟩ := List.mem_map.1 hs
    obtain ⟨h0, h1⟩ := hr c i
    constructor
    · have hle := mul_le_mul_of_nonneg_right
        (show (-1 : ℚ) ≤ (rand c i - 1/2) * 2 by linarith) hv
      linarith
    · have hle := mul_le_mul_of_nonneg_right
        (show (rand c i - 1/2) * 2 ≤ 1 by linarith) hv
      linarith
  · intro h0 ch hch s hs
    rw [hp] at hch
    obtain ⟨c, hc, rfl⟩ := List.mem_map.1 hch
    obtain ⟨i, hi, rfl⟩ := List.mem_map.1 hs
    simp [h0]

/-- Claim C4, witness: with three notes held, volume 1 and every draw 1/4,
a two-channel buffer of lengths 2 and 1 renders to the constant sample
(1/4 - 1/2) * 2 * 1 = -1/2, which lies in [-1, 1]. -/
theorem C4_witness :
    process { params := { volume := 1 }, notes := 3 } [[3, 4], [5]]
        (fun _ _ => 1/4) = [[-1/2, -1/2], [-1/2]] ∧
      -(1 : ℚ) ≤ -1/2 ∧ (-1/2 : ℚ) ≤ 1 := by
  have h := C4_noise { params := { volume := 1 }, notes := 3 } [[3, 4], [5]]
    (fun _ _ => 1/4) (by decide) (fun c i => by norm_num) (by norm_num)
  have e : process { params := { volume := 1 }, notes := 3 } [[3, 4], [5]]
      (fun _ _ => 1/4) = [[-1/2, -1/2], [-1/2]] := by
    rw [h.1]
    norm_num
    rw [show List.range 2 = [0, 1] from rfl]
    simp [List.replicate]
  exact ⟨e, h.2.1 [-1/2, -1/2] (by rw [e]; simp) (-1/2) (by simp)⟩

/-- Claim C5, counterexample: `set_parameter` does not enforce the [0, 1]
range: setting the volume to 2.0 stores 2.0, and a get then reads a value
outside the declared range. -/
theorem C5_counterexample :
    get_parameter (set_parameter WhisperParameters.default 0 2) 0 = 2 ∧
      ¬ get_parameter (set_parameter WhisperParameters.default 0 2) 0 ≤ 1 := by
  norm_num [get_parameter, set_parameter, WhisperParameters.default]

/-- The volume cell stays in [0, 1] under any sequence of `set_parameter`
calls whose index-0 arguments lie in [0, 1], starting from any state whose
volume lies in [0, 1]. -/
theorem apply_sets_bounds (calls : List (ℤ × ℚ)) :
    ∀ p : WhisperParameters, 0 ≤ p.volume → p.volume ≤ 1 →
      (∀ c ∈ calls, c.1 = 0 → 0 ≤ c.2 ∧ c.2 ≤ 1) →
      0 ≤ (apply_sets p calls).volume ∧ (apply_sets p calls).volume ≤ 1 := by
  induction calls with
  | nil =>
    intro p h0 h1 _
    exact ⟨h0, h1⟩
  | cons c calls ih =>
    intro p h0 h1 hc
    have hstep : apply_sets p (c :: calls) =
        apply_sets (set_parameter p c.1 c.2) calls := rfl
    rw [hstep]
    by_cases hz : c.1 = 0
    · obtain ⟨hb0, hb1⟩ := hc c (by simp) hz
      exact ih (set_parameter p c.1 c.2)
        (by simpa [set_parameter, hz] using hb0)
        (by simpa [set_parameter, hz] using hb1)
        (fun d hd => hc d (List.mem_cons_of_mem c hd))
    · have hnoop : set_parameter p c.1 c.2 = p := by simp [set_parameter, hz]
      rw [hnoop]
      exact ih p h0 h1 (fun d hd => hc d (List.mem_cons_of_mem c hd))

/-- Claim C5, amended: the volume starts at the default 1.0, which is in
range, and the stored value read by get stays within [0.0, 1.0] after any
sequence of set calls whose index-0 arguments lie in [0, 1]; the set
operation itself stores its argument unchanged and enforces no range. -/
theorem C5_default_and_bounded_sets :
    get_parameter WhisperParameters.default 0 = 1 ∧
      ∀ calls : List (ℤ × ℚ),
        (∀ c ∈ calls, c.1 = 0 → 0 ≤ c.2 ∧ c.2 ≤ 1) →
        0 ≤ get_parameter (apply_sets WhisperParameters.default calls) 0 ∧
          get_parameter (apply_sets WhisperParameters.default calls) 0 ≤ 1 := by
  constructor
  · rfl
  · intro calls hc
    have h := apply_sets_bounds calls WhisperParameters.default
      (by norm_num [WhisperParameters.default])
      (by norm_num [WhisperParameters.default]) hc
    simpa [get_parameter] using h

/-- Claim C5, witness: after the call sequence set(0, 1/2); set(3, 7) the
stored volume read by get is within [0, 1]. -/
theorem C5_witness :
    0 ≤ get_parameter
        (apply_sets WhisperParameters.default [(0, 1/2), (3, 7)]) 0 ∧
      get_parameter
        (apply_sets WhisperParameters.default [(0, 1/2), (3, 7)]) 0 ≤ 1 :=
  C5_default_and_bounded_sets.2 [(0, 1/2), (3, 7)]
    (by intro c hc hz; fin_cases hc <;> norm_num at hz ⊢)

/-- Claim C6: for the valid index 0 and any value x in [0, 1], set(0, x)
followed by get(0) returns exactly x. -/
theorem C6_roundtrip (p : WhisperParameters) (x : ℚ) (h0 : 0 ≤ x)
    (h1 : x ≤ 1) : get_parameter (set_parameter p 0 x) 0 = x := by
  simp [get_parameter, set_parameter]

/-- Claim C6, witness: the round trip at x = 1/2 from the default state. -/
theorem C6_witness :
    get_parameter (set_parameter WhisperParameters.default 0 (1/2)) 0 = 1/2 :=
  C6_roundtrip WhisperParameters.default (1/2) (by norm_num) (by norm_num)

/-- Claim C7: for every parameter index other than 0, get returns 0.0,
label, name and display text return the empty string, and set is a no-op
that leaves the whole store, in particular the value of parameter 0,
unchanged. -/
theorem C7_unknown_index (p : WhisperParameters) (i : ℤ) (h : i ≠ 0)
    (v : ℚ) :
    get_parameter p i = 0 ∧ get_parameter_label p i = "" ∧
      get_parameter_name p i = "" ∧ get_parameter_text p i = "" ∧
      set_parameter p i v = p ∧
      get_parameter (set_parameter p i v) 0 = get_parameter p 0 := by
  simp [get_parameter, get_parameter_label, get_parameter_name,
    get_parameter_text, set_parameter, h]

/-- Claim C7, witness: the unknown index 5 probed on the default store,
with the ignored set value 9. -/
theorem C7_witness :
    get_parameter WhisperParameters.default 5 = 0 ∧
      get_parameter_label WhisperParameters.default 5 = "" ∧
      get_parameter_name WhisperParameters.default 5 = "" ∧
      get_parameter_text WhisperParameters.default 5 = "" ∧
      set_parameter WhisperParameters.default 5 9 = WhisperParameters.default ∧
      get_parameter (set_parameter WhisperParameters.default 5 9) 0 =
        get_parameter WhisperParameters.default 0 :=
  C7_unknown_index WhisperParameters.default 5 (by decide) 9

/-- Claim C8: the plugin descriptor reports 0 inputs, 2 outputs, the
synthesizer category, 1 parameter, and the fixed unique identifier 1337. -/
theorem C8_descriptor (w : Whisper) :
    (get_info w).inputs = 0 ∧ (get_info w).outputs = 2 ∧
      (get_info w).category = Category.Synth ∧
      (get_info w).parameters = 1 ∧ (get_info w).unique_id = 1337 :=
  ⟨rfl, rfl, rfl, rfl, rfl⟩

/-- Claim C10: one invocation of the render operation leaves the plugin
state, in particular the held-note count and the stored volume, exactly
unchanged; the source method body assigns only to buffer samples. -/
theorem C10_frame (w : Whisper) (buffer : List (List ℚ))
    (rand : ℕ → ℕ → ℚ) :
    (process_full w buffer rand).1 = w ∧
      (process_full w buffer rand).1.notes = w.notes ∧
      (process_full w buffer rand).1.params.volume = w.params.volume :=
  ⟨rfl, rfl, rfl⟩
